import Mathlib

/-!
Shallow embedding of the session time-accounting core of `pydoro.py`:
the countdown engine (`countdown_period`), the cycle scheduler
(`run_pomodoro`), the activity ledger (`change_current_daily_activity`,
`show_daily_activity_summary`) and the up-counting simple timer
(`run_simple_timer`).  Timestamps are rationals (seconds); machine time
is modelled by the nominal one-second tick of the polling loop.
-/

set_option maxRecDepth 8000

namespace Pydoro

/-- A control signal observed by one iteration of the countdown polling
loop: no key pressed, Enter (pause toggle), the early-end key 'Q'
followed by the keep/discard answer (the answer string is the user's
input after the source applies `.lower().strip()`), or Ctrl+C followed
by the skip/cancel answer. -/
inductive Signal where
  | tick
  | togglePause
  | earlyEnd (ans : String)
  | interrupt (ans : String)
deriving DecidableEq, Repr

/-- The status strings returned by `countdown_period` in the source. -/
inductive Status where
  | completed
  | early_end_registered
  | early_end_not_registered
  | user_cancelled_all
  | user_skip_phase
deriving DecidableEq, Repr

/-- Result of one phase: the `actual_seconds_elapsed_in_phase` value and
the status string, plus a ghost flag recording whether the keep/discard
prompt (`input` at line 397 of the source) was shown to the user. -/
structure CountdownResult where
  elapsedSeconds : Nat
  status : Status
  askedEarlyEndPrompt : Bool
deriving DecidableEq, Repr

/-- The `while current_seconds >= 0` loop of `countdown_period`.
One trace element is consumed per iteration; each iteration accounts
for one nominal second of wall-clock time (`wall`).  `remaining` is the
`current_seconds` counter, decremented only when not paused.  On the
early-end key during a work phase the wall-clock elapsed time is
reported and the keep/discard prompt is shown only when it is positive;
in a break phase the key is ignored.  An exhausted trace with the timer
paused never terminates (`none`); unpaused, the countdown runs to zero
and reports the configured duration. -/
def countdownLoop (isWork : Bool) (durInit : Nat) :
    List Signal → Int → Bool → Nat → Option CountdownResult
  | [], remaining, isPaused, _ =>
      if remaining < 0 then some ⟨durInit, .completed, false⟩
      else if isPaused then none
      else some ⟨durInit, .completed, false⟩
  | sig :: rest, remaining, isPaused, wall =>
      if remaining < 0 then some ⟨durInit, .completed, false⟩
      else
        match sig with
        | .tick =>
            countdownLoop isWork durInit rest
              (if isPaused then remaining else remaining - 1) isPaused (wall + 1)
        | .togglePause =>
            let p := !isPaused
            countdownLoop isWork durInit rest
              (if p then remaining else remaining - 1) p (wall + 1)
        | .earlyEnd ans =>
            if isWork then
              if 0 < wall then
                some ⟨wall,
                  if ans = "s" then .early_end_registered else .early_end_not_registered,
                  true⟩
              else
                some ⟨0, .early_end_not_registered, false⟩
            else
              countdownLoop isWork durInit rest
                (if isPaused then remaining else remaining - 1) isPaused (wall + 1)
        | .interrupt ans =>
            some ⟨wall,
              if ans = "c" then .user_cancelled_all else .user_skip_phase,
              false⟩

/-- `countdown_period(duration_seconds, phase_name, ...)` driven by a
trace of control signals; `isWork` holds when `"TRABAJO"` is in the
phase name. -/
def countdown_period (isWork : Bool) (durationSeconds : Nat)
    (trace : List Signal) : Option CountdownResult :=
  countdownLoop isWork durationSeconds trace (durationSeconds : Int) false 0

example : countdown_period true 3 [] = some ⟨3, .completed, false⟩ := by decide

example : countdown_period true 10 [.earlyEnd "s"] =
    some ⟨0, .early_end_not_registered, false⟩ := by decide

example : countdown_period true 10 [.tick, .tick, .earlyEnd "s"] =
    some ⟨2, .early_end_registered, true⟩ := by decide

example : countdown_period true 10 [.tick, .earlyEnd "n"] =
    some ⟨1, .early_end_not_registered, true⟩ := by decide

example : countdown_period false 10 [.earlyEnd "s", .interrupt "c"] =
    some ⟨1, .user_cancelled_all, false⟩ := by decide

example : countdown_period true 2 [.togglePause, .tick, .tick, .tick, .tick, .earlyEnd "s"] =
    some ⟨5, .early_end_registered, true⟩ := by decide

/-! ### Activity ledger -/

/-- One entry of `daily_activity_log`; `stop` models the `'end'` key. -/
structure ActivitySegment where
  category : String
  start : ℚ
  stop : ℚ
  duration : ℚ
deriving DecidableEq, Repr

/-- The global ledger variables `daily_activity_log`,
`current_daily_activity` and `last_activity_start_time`. -/
structure LedgerState where
  daily_activity_log : List ActivitySegment
  current_daily_activity : Option String
  last_activity_start_time : Option ℚ
deriving DecidableEq, Repr

/-- The ledger as initialised at the top of `main`. -/
def initialLedger : LedgerState := ⟨[], none, none⟩

/-- `change_current_daily_activity(new_category_name)` with the call
time `now` made explicit.  First the ending segment is appended when a
segment is open, the new category differs from it (or is `None`), and
its duration is at least one second; then the new segment is opened
(`None` stops tracking, the same category is a no-op). -/
def change_current_daily_activity (now : ℚ) (newCat : Option String)
    (s : LedgerState) : LedgerState :=
  let closed :=
    match s.current_daily_activity, s.last_activity_start_time with
    | some cur, some st =>
        if newCat ≠ some cur then
          if 1 ≤ now - st then
            { s with daily_activity_log :=
                s.daily_activity_log ++ [⟨cur, st, now, now - st⟩] }
          else s
        else s
    | _, _ => s
  match newCat with
  | some c =>
      if newCat ≠ s.current_daily_activity then
        { closed with current_daily_activity := some c,
                      last_activity_start_time := some now }
      else closed
  | none =>
      { closed with current_daily_activity := none,
                    last_activity_start_time := none }

/-- A sequence of ledger operations, each a call time paired with the
requested category (`none` stops tracking), applied in order. -/
def applyLedgerOps (ops : List (ℚ × Option String)) (s : LedgerState) :
    LedgerState :=
  ops.foldl (fun st p => change_current_daily_activity p.1 p.2 st) s

/-- A sequence of category switches (category, timestamp) applied in
order, as in the no-double-counting property. -/
def applySwitches (switches : List (String × ℚ)) (s : LedgerState) :
    LedgerState :=
  switches.foldl (fun st p => change_current_daily_activity p.2 (some p.1) st) s

/-- Total seconds over the closed segments of a log. -/
def segment_seconds_total (log : List ActivitySegment) : ℚ :=
  (log.map (·.duration)).sum

/-- The per-category accumulated seconds computed by
`show_daily_activity_summary` (lines 813-823): closed durations of the
category plus the live duration of the open segment when it belongs to
the category and is positive. -/
def accumulated_category_seconds (log : List ActivitySegment)
    (cur : Option String) (lastStart : Option ℚ) (now : ℚ) (cat : String) : ℚ :=
  ((log.filter (fun e => e.category = cat)).map (·.duration)).sum +
    match cur, lastStart with
    | some c, some st => if c = cat ∧ 0 < now - st then now - st else 0
    | _, _ => 0

/-- The categories that receive a nonzero key in the summary's
`accumulated_times` dictionary: those of the closed segments plus the
currently open one. -/
def summary_categories (log : List ActivitySegment) (cur : Option String) :
    List String :=
  (log.map (·.category) ++ (match cur with | some c => [c] | none => [])).dedup

example :
    change_current_daily_activity 5 (some "Trabajo")
      ⟨[], some "Estudio", some 0⟩ =
    ⟨[⟨"Estudio", 0, 5, 5⟩], some "Trabajo", some 5⟩ := by
  simp [change_current_daily_activity]

example :
    change_current_daily_activity (1/2) (some "Trabajo")
      ⟨[], some "Estudio", some 0⟩ =
    ⟨[], some "Trabajo", some (1/2)⟩ := by
  simp [change_current_daily_activity]
  norm_num

example :
    change_current_daily_activity 5 (some "Estudio")
      ⟨[], some "Estudio", some 0⟩ =
    ⟨[], some "Estudio", some 0⟩ := by
  simp [change_current_daily_activity]

example :
    change_current_daily_activity 5 none
      ⟨[], some "Estudio", some 0⟩ =
    ⟨[⟨"Estudio", 0, 5, 5⟩], none, none⟩ := by
  simp [change_current_daily_activity]

/-! ### Cycle scheduler -/

/-- The keys of `SPECIFIC_SUBCATEGORY_MAPPING`. -/
def SPECIFIC_SUBCATEGORY_KEYS : List String := ["Estudio", "Trabajo", "Lectura"]

/-- `daily_activity_name and daily_activity_name in SPECIFIC_SUBCATEGORY_MAPPING`. -/
def has_subcategory_mapping : Option String → Bool
  | some a => SPECIFIC_SUBCATEGORY_KEYS.contains a
  | none => false

/-- `assign_time_to_specific_category(duration_minutes, specific_category)`
over the `total_specific_category_times` dictionary, modelled as a total
map with default 0. -/
def assign_time_to_specific_category (minutes : Nat) (sc : String)
    (times : String → Nat) : String → Nat :=
  fun k => if k = sc then times k + minutes else times k

/-- What the scheduler does after the work phase: run the break, skip
straight to the next cycle, or abort the whole set. -/
inductive WorkNext where
  | toBreak
  | skipCycle
  | abortAll
deriving DecidableEq, Repr

/-- Control-flow of the `if work_outcome == ...` chain in `run_pomodoro`. -/
def work_outcome_next : Status → WorkNext
  | .user_cancelled_all => .abortAll
  | .user_skip_phase => .skipCycle
  | _ => .toBreak

/-- State effect of processing a work-phase outcome in `run_pomodoro`
(lines 484-517): the updated pomodoro count, updated subcategory
minutes, and whether `prompt_specific_work_category` was invoked. -/
structure WorkEffect where
  pomodoros : Nat
  times : String → Nat
  promptedSubcategory : Bool

/-- Processing of the work-phase outcome in `run_pomodoro`: a completed
phase increments the pomodoro counter and credits the full configured
`work_minutes` to the chosen subcategory; a registered early end
credits `elapsed // 60` minutes only when that is positive; everything
else leaves the counters untouched.  `subcatChoice` is the user's
answer when the subcategory prompt is shown (`none` is option 0). -/
def process_work_outcome (work_minutes : Nat) (daily_activity : Option String)
    (subcatChoice : Option String) (elapsedSeconds : Nat) (st : Status)
    (pomodoros : Nat) (times : String → Nat) : WorkEffect :=
  match st with
  | .completed =>
      if has_subcategory_mapping daily_activity then
        match subcatChoice with
        | some sc =>
            ⟨pomodoros + 1, assign_time_to_specific_category work_minutes sc times, true⟩
        | none => ⟨pomodoros + 1, times, true⟩
      else ⟨pomodoros + 1, times, false⟩
  | .early_end_registered =>
      if 0 < elapsedSeconds / 60 then
        if has_subcategory_mapping daily_activity then
          match subcatChoice with
          | some sc =>
              ⟨pomodoros, assign_time_to_specific_category (elapsedSeconds / 60) sc times, true⟩
          | none => ⟨pomodoros, times, true⟩
        else ⟨pomodoros, times, false⟩
      else ⟨pomodoros, times, false⟩
  | _ => ⟨pomodoros, times, false⟩

/-- `is_long_break = (i % num_cycles == 0)` at line 532. -/
def is_long_break (i num_cycles : Nat) : Bool := i % num_cycles == 0

/-- The `current_set_*` counters of one scheduler run. -/
structure SetCounters where
  pomodoros : Nat
  shortBreaks : Nat
  longBreaks : Nat
deriving DecidableEq, Repr

/-- The user interaction of one cycle: the signal trace of the work
phase, the subcategory chosen if prompted, and the signal trace of the
break phase. -/
structure CycleInput where
  workTrace : List Signal
  workSubcat : Option String
  breakTrace : List Signal

/-- The `for i in range(1, num_cycles + 1)` loop of `run_pomodoro`,
driven by one `CycleInput` per cycle.  Returns `none` when a phase
never terminates or the supplied interaction runs out early. -/
def run_pomodoro_cycles (work_minutes short_break_minutes long_break_minutes
    num_cycles : Nat) (daily_activity : Option String) :
    Nat → SetCounters → (String → Nat) → List CycleInput →
    Option (SetCounters × (String → Nat))
  | _, counters, times, [] => some (counters, times)
  | i, counters, times, inp :: rest =>
      if num_cycles < i then some (counters, times)
      else
        match countdown_period true (work_minutes * 60) inp.workTrace with
        | none => none
        | some wres =>
            let eff := process_work_outcome work_minutes daily_activity
              inp.workSubcat wres.elapsedSeconds wres.status counters.pomodoros times
            let counters1 : SetCounters := { counters with pomodoros := eff.pomodoros }
            match work_outcome_next wres.status with
            | .abortAll => some (counters1, eff.times)
            | .skipCycle =>
                run_pomodoro_cycles work_minutes short_break_minutes
                  long_break_minutes num_cycles daily_activity
                  (i + 1) counters1 eff.times rest
            | .toBreak =>
                match countdown_period false
                    ((if is_long_break i num_cycles then long_break_minutes
                      else short_break_minutes) * 60) inp.breakTrace with
                | none => none
                | some bres =>
                    match bres.status with
                    | .completed =>
                        run_pomodoro_cycles work_minutes short_break_minutes
                          long_break_minutes num_cycles daily_activity
                          (i + 1)
                          (if is_long_break i num_cycles then
                            { counters1 with longBreaks := counters1.longBreaks + 1 }
                           else
                            { counters1 with shortBreaks := counters1.shortBreaks + 1 })
                          eff.times rest
                    | .user_cancelled_all => some (counters1, eff.times)
                    | _ =>
                        run_pomodoro_cycles work_minutes short_break_minutes
                          long_break_minutes num_cycles daily_activity
                          (i + 1) counters1 eff.times rest

/-- `run_pomodoro(work_minutes, short_break_minutes, long_break_minutes,
num_cycles, ...)` starting from fresh set counters. -/
def run_pomodoro (work_minutes short_break_minutes long_break_minutes
    num_cycles : Nat) (daily_activity : Option String)
    (inputs : List CycleInput) : Option (SetCounters × (String → Nat)) :=
  run_pomodoro_cycles work_minutes short_break_minutes long_break_minutes
    num_cycles daily_activity 1 ⟨0, 0, 0⟩ (fun _ => 0) inputs

example :
    (run_pomodoro 25 5 15 4 none
        (List.replicate 4 ⟨[], none, []⟩)).map Prod.fst =
      some ⟨4, 3, 1⟩ := by decide

example :
    (run_pomodoro 25 5 15 1 none
        (List.replicate 1 ⟨[], none, []⟩)).map Prod.fst =
      some ⟨1, 0, 1⟩ := by decide

/-! ### Simple (up-counting) timer -/

/-- A control signal observed by one iteration of the simple timer's
polling loop; Ctrl+C carries the add/cancel answer (after
`.lower().strip()`). -/
inductive TimerSignal where
  | tick
  | togglePause
  | interrupt (ans : String)
deriving DecidableEq, Repr

/-- The `while True` loop of `run_simple_timer`: the elapsed counter
increments once per unpaused iteration; on Ctrl+C the answer `'c'`
discards the time (0 minutes) and anything else returns
`int(current_elapsed_seconds / 60)` minutes. -/
def simpleTimerLoop : List TimerSignal → Nat → Bool → Option Nat
  | [], _, _ => none
  | sig :: rest, elapsed, isPaused =>
      match sig with
      | .tick =>
          simpleTimerLoop rest (if isPaused then elapsed else elapsed + 1) isPaused
      | .togglePause =>
          let p := !isPaused
          simpleTimerLoop rest (if p then elapsed else elapsed + 1) p
      | .interrupt ans =>
          some (if ans = "c" then 0 else elapsed / 60)

/-- `run_simple_timer(...)` driven by a trace of control signals;
returns the minutes reported back to `main`. -/
def run_simple_timer (trace : List TimerSignal) : Option Nat :=
  simpleTimerLoop trace 0 false

example : run_simple_timer (List.replicate 130 .tick ++ [.interrupt "x"]) =
    some 2 := by decide

example : run_simple_timer (List.replicate 130 .tick ++ [.interrupt "c"]) =
    some 0 := by decide

/-! ### Lemmas about the countdown loop -/

/-- Every `completed` result of the countdown loop reports the
configured duration, never a measured value. -/
lemma countdownLoop_completed_elapsed (trace : List Signal) :
    ∀ (isWork : Bool) (durInit : Nat) (remaining : Int) (isPaused : Bool)
      (wall : Nat) (res : CountdownResult),
      countdownLoop isWork durInit trace remaining isPaused wall = some res →
      res.status = Status.completed → res.elapsedSeconds = durInit := by
  induction trace with
  | nil =>
      intro isWork durInit remaining isPaused wall res h _
      rw [countdownLoop] at h
      split at h
      · cases h; rfl
      · split at h
        · exact absurd h (by simp)
        · cases h; rfl
  | cons sig rest ih =>
      intro isWork durInit remaining isPaused wall res h hst
      cases sig with
      | tick =>
          rw [countdownLoop] at h
          split at h
          · cases h; rfl
          · exact ih _ _ _ _ _ _ h hst
      | togglePause =>
          rw [countdownLoop] at h
          split at h
          · cases h; rfl
          · exact ih _ _ _ _ _ _ h hst
      | earlyEnd ans =>
          rw [countdownLoop] at h
          split at h
          · cases h; rfl
          · by_cases hw : isWork
            · rw [if_pos hw] at h
              split at h
              · cases h
                split at hst <;> exact absurd hst (by simp)
              · cases h
                exact absurd hst (by simp)
            · rw [if_neg hw] at h
              exact ih _ _ _ _ _ _ h hst
      | interrupt ans =>
          rw [countdownLoop] at h
          split at h
          · cases h; rfl
          · cases h
            split at hst <;> exact absurd hst (by simp)

/-- The keep/discard decision of an early-ended work phase: the prompt
is skipped exactly when the measured elapsed time is zero whole
seconds, and in that case the time is treated as not registered. -/
lemma countdownLoop_early_end_shape (trace : List Signal) :
    ∀ (isWork : Bool) (durInit : Nat) (remaining : Int) (isPaused : Bool)
      (wall : Nat) (res : CountdownResult),
      countdownLoop isWork durInit trace remaining isPaused wall = some res →
      res.status = Status.early_end_registered ∨
        res.status = Status.early_end_not_registered →
      (res.askedEarlyEndPrompt = false ↔ res.elapsedSeconds = 0) ∧
        (res.elapsedSeconds = 0 →
          res.status = Status.early_end_not_registered) := by
  induction trace with
  | nil =>
      intro isWork durInit remaining isPaused wall res h hst
      rw [countdownLoop] at h
      split at h
      · cases h; rcases hst with hst | hst <;> exact absurd hst (by simp)
      · split at h
        · exact absurd h (by simp)
        · cases h; rcases hst with hst | hst <;> exact absurd hst (by simp)
  | cons sig rest ih =>
      intro isWork durInit remaining isPaused wall res h hst
      cases sig with
      | tick =>
          rw [countdownLoop] at h
          split at h
          · cases h; rcases hst with hst | hst <;> exact absurd hst (by simp)
          · exact ih _ _ _ _ _ _ h hst
      | togglePause =>
          rw [countdownLoop] at h
          split at h
          · cases h; rcases hst with hst | hst <;> exact absurd hst (by simp)
          · exact ih _ _ _ _ _ _ h hst
      | earlyEnd ans =>
          rw [countdownLoop] at h
          split at h
          · cases h; rcases hst with hst | hst <;> exact absurd hst (by simp)
          · by_cases hw : isWork
            · rw [if_pos hw] at h
              split at h
              next hwall =>
                cases h
                refine ⟨⟨fun h' => by simp at h',
                    fun h' => absurd (show wall = 0 from h') (by omega)⟩,
                  fun h' => absurd (show wall = 0 from h') (by omega)⟩
              next hwall =>
                cases h
                exact ⟨by simp, fun _ => rfl⟩
            · rw [if_neg hw] at h
              exact ih _ _ _ _ _ _ h hst
      | interrupt ans =>
          rw [countdownLoop] at h
          split at h
          · cases h; rcases hst with hst | hst <;> exact absurd hst (by simp)
          · cases h
            rcases hst with hst | hst <;> split at hst <;>
              exact absurd hst (by simp)

/-- When no pause toggle occurs, the countdown's wall clock never gets
ahead of the remaining-time counter, so any reported elapsed time is at
most the configured duration. -/
lemma countdownLoop_no_pause_bound (trace : List Signal) :
    ∀ (isWork : Bool) (durInit : Nat) (remaining : Int) (wall : Nat)
      (res : CountdownResult),
      Signal.togglePause ∉ trace →
      (wall : Int) + remaining = (durInit : Int) →
      countdownLoop isWork durInit trace remaining false wall = some res →
      res.elapsedSeconds ≤ durInit := by
  induction trace with
  | nil =>
      intro isWork durInit remaining wall res _ _ h
      rw [countdownLoop] at h
      split at h
      · cases h; exact le_refl _
      · simp only [Bool.false_eq_true, if_false] at h
        cases h; exact le_refl _
  | cons sig rest ih =>
      intro isWork durInit remaining wall res hmem hinv h
      have hmem' : Signal.togglePause ∉ rest := fun hx => hmem (List.mem_cons_of_mem _ hx)
      cases sig with
      | tick =>
          rw [countdownLoop] at h
          split at h
          · cases h; exact le_refl _
          · simp only [Bool.false_eq_true, if_false] at h
            exact ih _ _ _ _ _ hmem' (by omega) h
      | togglePause => exact absurd (List.mem_cons_self _ _) hmem
      | earlyEnd ans =>
          rw [countdownLoop] at h
          split at h
          · cases h; exact le_refl _
          next hneg =>
            by_cases hw : isWork
            · rw [if_pos hw] at h
              split at h
              · cases h
                show wall ≤ durInit
                omega
              · cases h
                show 0 ≤ durInit
                omega
            · rw [if_neg hw] at h
              simp only [Bool.false_eq_true, if_false] at h
              exact ih _ _ _ _ _ hmem' (by omega) h
      | interrupt ans =>
          rw [countdownLoop] at h
          split at h
          · cases h; exact le_refl _
          next hneg =>
            cases h
            show wall ≤ durInit
            omega

/-! ### Claims C1 and C2 -/

/-- C1 counterexample: an early-ended work phase with a measured
elapsed time of 45 seconds — under 60 seconds — does NOT skip the
keep/discard decision: the prompt is shown
(`askedEarlyEndPrompt = true`) and answering `s` yields
`early_end_registered`, not `early_end_not_registered`. -/
theorem C1_counterexample :
    countdown_period true 1500
        (List.replicate 45 Signal.tick ++ [Signal.earlyEnd "s"]) =
      some ⟨45, Status.early_end_registered, true⟩ ∧ 45 < 60 := by
  constructor
  · decide
  · decide

/-- C1 (amended): for every early-terminated work phase,
`countdown_period` skips the keep/discard decision and treats the phase
as discarded exactly when the measured elapsed time is 0 whole seconds
(under 1 second), not under 60 seconds; with zero elapsed seconds the
outcome is `early_end_not_registered` without prompting. -/
theorem C1_early_end_skip_threshold (isWork : Bool) (dur : Nat)
    (trace : List Signal) (res : CountdownResult)
    (h : countdown_period isWork dur trace = some res)
    (hst : res.status = Status.early_end_registered ∨
      res.status = Status.early_end_not_registered) :
    (res.askedEarlyEndPrompt = false ↔ res.elapsedSeconds = 0) ∧
      (res.elapsedSeconds = 0 →
        res.status = Status.early_end_not_registered) :=
  countdownLoop_early_end_shape trace isWork dur _ _ _ res h hst

/-- C1 witness: the amended theorem at the concrete run where the user
presses the early-end key before a full second has elapsed. -/
theorem C1_early_end_skip_threshold_witness :
    countdown_period true 10 [Signal.earlyEnd "s"] =
      some ⟨0, Status.early_end_not_registered, false⟩ ∧
    ((false = false ↔ (0 : Nat) = 0) ∧
      ((0 : Nat) = 0 →
        Status.early_end_not_registered = Status.early_end_not_registered)) :=
  ⟨by decide,
    C1_early_end_skip_threshold true 10 [Signal.earlyEnd "s"]
      ⟨0, Status.early_end_not_registered, false⟩ (by decide) (Or.inr rfl)⟩

/-- C2 counterexample: a work phase configured for 2 seconds, paused on
the first tick and early-ended four nominal seconds later, reports an
elapsed wall-clock time of 5 seconds — strictly more than the
configured duration. -/
theorem C2_counterexample :
    countdown_period true 2
        [Signal.togglePause, Signal.tick, Signal.tick, Signal.tick,
          Signal.tick, Signal.earlyEnd "s"] =
      some ⟨5, Status.early_end_registered, true⟩ ∧ 2 < 5 := by
  constructor
  · decide
  · decide

/-- C2 (amended): the `elapsedSeconds` carried by a `countdown_period`
outcome is at most the configured duration whenever no pause toggle
occurs during the phase; with pauses, the wall-clock time reported by
an early end or interruption can exceed the configured duration. -/
theorem C2_elapsed_le_duration_no_pause (isWork : Bool) (dur : Nat)
    (trace : List Signal) (res : CountdownResult)
    (hp : Signal.togglePause ∉ trace)
    (h : countdown_period isWork dur trace = some res) :
    res.elapsedSeconds ≤ dur :=
  countdownLoop_no_pause_bound trace isWork dur dur 0 res hp (by simp) h

/-- C2 witness: the amended theorem at a concrete pause-free run. -/
theorem C2_elapsed_le_duration_no_pause_witness :
    Signal.togglePause ∉ [Signal.tick, Signal.earlyEnd "s"] ∧
    countdown_period true 5 [Signal.tick, Signal.earlyEnd "s"] =
      some ⟨1, Status.early_end_registered, true⟩ ∧
    (⟨1, Status.early_end_registered, true⟩ : CountdownResult).elapsedSeconds ≤ 5 :=
  ⟨by decide, by decide,
    C2_elapsed_le_duration_no_pause true 5 [Signal.tick, Signal.earlyEnd "s"]
      ⟨1, Status.early_end_registered, true⟩ (by decide) (by decide)⟩

/-! ### Claims C4, C7, C8, C9 about the scheduler -/

/-- C4: a work phase that runs to natural completion yields `completed`
with `elapsedSeconds` equal to the configured duration exactly, and the
scheduler then increments the pomodoro counter by exactly one and, when
a subcategory is chosen, credits exactly the full configured work
minutes to that subcategory and nothing to any other. -/
theorem C4_completed_phase_crediting :
    (∀ (isWork : Bool) (dur : Nat) (trace : List Signal) (res : CountdownResult),
        countdown_period isWork dur trace = some res →
        res.status = Status.completed → res.elapsedSeconds = dur) ∧
    (∀ (wm : Nat) (act : Option String) (sc : String) (e pom : Nat)
        (times : String → Nat),
        has_subcategory_mapping act = true →
        (process_work_outcome wm act (some sc) e Status.completed pom
              times).pomodoros = pom + 1 ∧
          (process_work_outcome wm act (some sc) e Status.completed pom
              times).times sc = times sc + wm ∧
          ∀ k, k ≠ sc →
            (process_work_outcome wm act (some sc) e Status.completed pom
                times).times k = times k) ∧
    (∀ (wm : Nat) (act : Option String) (e pom : Nat) (times : String → Nat),
        (process_work_outcome wm act none e Status.completed pom
            times).pomodoros = pom + 1 ∧
          (process_work_outcome wm act none e Status.completed pom
              times).times = times) := by
  refine ⟨fun isWork dur trace res h hst =>
      countdownLoop_completed_elapsed trace isWork dur _ _ _ res h hst,
    fun wm act sc e pom times hmap => ?_, fun wm act e pom times => ?_⟩
  · refine ⟨?_, ?_, fun k hk => ?_⟩
    · simp [process_work_outcome, hmap]
    · simp [process_work_outcome, hmap, assign_time_to_specific_category]
    · simp [process_work_outcome, hmap, assign_time_to_specific_category, hk]
  · constructor
    · simp only [process_work_outcome]
      split <;> rfl
    · simp only [process_work_outcome]
      split <;> rfl

/-- C4 witness: a 1500-second work phase with no interaction completes
with 1500 elapsed seconds; processing it with daily activity `Estudio`
and chosen subcategory `Programación` credits exactly 25 minutes. -/
theorem C4_completed_phase_crediting_witness :
    countdown_period true 1500 [] = some ⟨1500, Status.completed, false⟩ ∧
    (⟨1500, Status.completed, false⟩ : CountdownResult).elapsedSeconds = 1500 ∧
    (process_work_outcome 25 (some "Estudio") (some "Programación") 1500
        Status.completed 0 (fun _ => 0)).pomodoros = 0 + 1 ∧
    (process_work_outcome 25 (some "Estudio") (some "Programación") 1500
        Status.completed 0 (fun _ => 0)).times "Programación" = 0 + 25 :=
  ⟨by decide,
    C4_completed_phase_crediting.1 true 1500 [] ⟨1500, Status.completed, false⟩
      (by decide) rfl,
    (C4_completed_phase_crediting.2.1 25 (some "Estudio") "Programación" 1500 0
        (fun _ => 0) (by decide)).1,
    (C4_completed_phase_crediting.2.1 25 (some "Estudio") "Programación" 1500 0
        (fun _ => 0) (by decide)).2.1⟩

/-- C7: an early-ended work phase registered with under 60 elapsed
seconds (zero whole minutes) makes the scheduler skip the subcategory
prompt entirely, credit no minutes to any subcategory, and leave the
pomodoro counter unchanged. -/
theorem C7_sub_minute_early_end_no_credit (wm : Nat) (act : Option String)
    (choice : Option String) (e pom : Nat) (times : String → Nat)
    (he : e < 60) :
    (process_work_outcome wm act choice e Status.early_end_registered pom
        times).promptedSubcategory = false ∧
    (process_work_outcome wm act choice e Status.early_end_registered pom
        times).times = times ∧
    (process_work_outcome wm act choice e Status.early_end_registered pom
        times).pomodoros = pom := by
  have h60 : e / 60 = 0 := Nat.div_eq_of_lt he
  simp [process_work_outcome, h60]

/-- C7 witness: the theorem at 45 elapsed seconds, an activity with a
subcategory mapping and a would-be chosen subcategory. -/
theorem C7_sub_minute_early_end_no_credit_witness :
    45 < 60 ∧
    (process_work_outcome 25 (some "Estudio") (some "Programación") 45
        Status.early_end_registered 3 (fun _ => 0)).promptedSubcategory = false ∧
    (process_work_outcome 25 (some "Estudio") (some "Programación") 45
        Status.early_end_registered 3 (fun _ => 0)).pomodoros = 3 :=
  ⟨by decide,
    (C7_sub_minute_early_end_no_credit 25 (some "Estudio") (some "Programación")
        45 3 (fun _ => 0) (by decide)).1,
    (C7_sub_minute_early_end_no_credit 25 (some "Estudio") (some "Programación")
        45 3 (fun _ => 0) (by decide)).2.2⟩

/-- C8: the break after cycle `i` is long exactly when
`i % num_cycles == 0`; in a fully completed 4-cycle run the counters
record 3 short breaks and 1 long break, and in a 1-cycle run the single
break is long. -/
theorem C8_long_break_schedule :
    (∀ i c : Nat, is_long_break i c = true ↔ i % c = 0) ∧
    (run_pomodoro 25 5 15 4 none
        (List.replicate 4 ⟨[], none, []⟩)).map Prod.fst = some ⟨4, 3, 1⟩ ∧
    (run_pomodoro 25 5 15 1 none
        (List.replicate 1 ⟨[], none, []⟩)).map Prod.fst = some ⟨1, 0, 1⟩ := by
  refine ⟨fun i c => ?_, by decide, by decide⟩
  simp [is_long_break]

/-- C9: whenever the work phase or the break phase of a cycle yields
`user_cancelled_all`, the scheduler's result on the full input list
equals its result with every remaining cycle removed — the run returns
immediately and later cycles contribute no increments. -/
theorem C9_cancel_all_short_circuits (wm sb lb nc : Nat)
    (act : Option String) (i : Nat) (cnt : SetCounters)
    (times : String → Nat) (inp : CycleInput) (rest : List CycleInput) :
    (∀ wres : CountdownResult,
      countdown_period true (wm * 60) inp.workTrace = some wres →
      wres.status = Status.user_cancelled_all →
      run_pomodoro_cycles wm sb lb nc act i cnt times (inp :: rest) =
        run_pomodoro_cycles wm sb lb nc act i cnt times [inp]) ∧
    (∀ wres bres : CountdownResult,
      countdown_period true (wm * 60) inp.workTrace = some wres →
      work_outcome_next wres.status = WorkNext.toBreak →
      countdown_period false
          ((if is_long_break i nc then lb else sb) * 60) inp.breakTrace =
        some bres →
      bres.status = Status.user_cancelled_all →
      run_pomodoro_cycles wm sb lb nc act i cnt times (inp :: rest) =
        run_pomodoro_cycles wm sb lb nc act i cnt times [inp]) := by
  constructor
  · intro wres hw hst
    simp only [run_pomodoro_cycles, hw, hst, work_outcome_next]
  · intro wres bres hw hnext hb hbst
    simp only [run_pomodoro_cycles, hw, hnext, hb, hbst]

/-- C9 witness: cancelling during the work phase of the first cycle
makes a two-cycle input behave exactly like a one-cycle input. -/
theorem C9_cancel_all_short_circuits_witness :
    run_pomodoro_cycles 1 1 1 4 none 1 ⟨0, 0, 0⟩ (fun _ => 0)
        [⟨[Signal.interrupt "c"], none, []⟩, ⟨[], none, []⟩] =
      run_pomodoro_cycles 1 1 1 4 none 1 ⟨0, 0, 0⟩ (fun _ => 0)
        [⟨[Signal.interrupt "c"], none, []⟩] :=
  (C9_cancel_all_short_circuits 1 1 1 4 none 1 ⟨0, 0, 0⟩ (fun _ => 0)
      ⟨[Signal.interrupt "c"], none, []⟩ [⟨[], none, []⟩]).1
    ⟨0, Status.user_cancelled_all, false⟩ (by decide) rfl

/-! ### Claim C10: the two keep/discard defaults -/

/-- Running `k` quiet ticks of the countdown advances the wall clock by
`k` seconds and the remaining counter down by `k`, as long as the
counter stays non-negative. -/
lemma countdownLoop_replicate_tick (k : Nat) :
    ∀ (isWork : Bool) (durInit : Nat) (remaining : Int) (wall : Nat)
      (rest : List Signal),
      (k : Int) ≤ remaining →
      countdownLoop isWork durInit
          (List.replicate k Signal.tick ++ rest) remaining false wall =
        countdownLoop isWork durInit rest (remaining - k) false (wall + k) := by
  induction k with
  | zero =>
      intro isWork durInit remaining wall rest _
      simp
  | succ n ih =>
      intro isWork durInit remaining wall rest hk
      rw [List.replicate_succ, List.cons_append, countdownLoop,
        if_neg (by omega : ¬remaining < 0)]
      simp only [Bool.false_eq_true, if_false]
      rw [ih _ _ _ _ _ (by omega)]
      congr 1
      · push_cast
        ring
      · omega

/-- Running `k` quiet ticks of the simple timer advances the elapsed
counter by `k`. -/
lemma simpleTimerLoop_replicate_tick (k : Nat) :
    ∀ (elapsed : Nat) (rest : List TimerSignal),
      simpleTimerLoop (List.replicate k TimerSignal.tick ++ rest) elapsed false =
        simpleTimerLoop rest (elapsed + k) false := by
  induction k with
  | zero =>
      intro e rest
      simp
  | succ n ih =>
      intro e rest
      rw [List.replicate_succ, List.cons_append, simpleTimerLoop]
      simp only [Bool.false_eq_true, if_false]
      rw [ih]
      congr 1
      omega

/-- C10: the two timers default in opposite directions.  In
`countdown_period`'s early-end prompt only the answer `s` registers the
elapsed time and any other answer discards it, while in
`run_simple_timer`'s interruption prompt only the answer `c` discards
the elapsed time (0 minutes) and any other answer keeps it, crediting
`elapsedSeconds / 60` (floor) minutes. -/
theorem C10_opposite_keep_discard_defaults :
    (∀ (dur k : Nat) (ans : String), 0 < k → k ≤ dur →
      countdown_period true dur
          (List.replicate k Signal.tick ++ [Signal.earlyEnd ans]) =
        some ⟨k, if ans = "s" then Status.early_end_registered
                 else Status.early_end_not_registered, true⟩) ∧
    (∀ (k : Nat) (ans : String),
      run_simple_timer
          (List.replicate k TimerSignal.tick ++ [TimerSignal.interrupt ans]) =
        some (if ans = "c" then 0 else k / 60)) := by
  constructor
  · intro dur k ans hk hkd
    rw [countdown_period,
      countdownLoop_replicate_tick k _ _ _ _ _ (by omega), countdownLoop,
      if_neg (by omega : ¬(dur : Int) - k < 0), if_pos rfl,
      if_pos (by omega : 0 < 0 + k)]
    norm_num
  · intro k ans
    rw [run_simple_timer, simpleTimerLoop_replicate_tick, simpleTimerLoop]
    norm_num

/-- C10 witness: 45 elapsed seconds; the countdown discards on the
answer `n`, the simple timer keeps (crediting 0 whole minutes) on the
answer `x`. -/
theorem C10_opposite_keep_discard_defaults_witness :
    (0 < 45 ∧ 45 ≤ 100) ∧
    countdown_period true 100
        (List.replicate 45 Signal.tick ++ [Signal.earlyEnd "n"]) =
      some ⟨45, Status.early_end_not_registered, true⟩ ∧
    run_simple_timer
        (List.replicate 45 TimerSignal.tick ++ [TimerSignal.interrupt "x"]) =
      some 0 := by
  refine ⟨⟨by decide, by decide⟩, ?_, ?_⟩
  · have h := C10_opposite_keep_discard_defaults.1 100 45 "n" (by decide) (by decide)
    simpa using h
  · have h := C10_opposite_keep_discard_defaults.2 45 "x"
    simpa using h

/-! ### Step lemmas for the ledger operation -/

/-- Starting tracking when no segment is open: nothing is logged, the
new segment opens at `now`. -/
lemma change_open_from_none (now : ℚ) (c : String) (s : LedgerState)
    (hc : s.current_daily_activity = none) :
    change_current_daily_activity now (some c) s =
      { s with current_daily_activity := some c,
               last_activity_start_time := some now } := by
  rcases s with ⟨log, cur, last⟩
  simp only at hc
  subst hc
  cases last <;> simp [change_current_daily_activity]

/-- Requesting the category that is already active is a no-op: no log
entry and `last_activity_start_time` is not reset. -/
lemma change_noop (now : ℚ) (c : String) (s : LedgerState)
    (hc : s.current_daily_activity = some c) :
    change_current_daily_activity now (some c) s = s := by
  rcases s with ⟨log, cur, last⟩
  simp only at hc
  subst hc
  cases last <;> simp [change_current_daily_activity]

/-- Switching to a different category with a segment open: the old
segment is appended exactly when its duration is at least one second,
and the new segment opens at `now`. -/
lemma change_switch (now : ℚ) (cOld cNew : String) (st : ℚ) (s : LedgerState)
    (hc : s.current_daily_activity = some cOld)
    (hst : s.last_activity_start_time = some st)
    (hne : cNew ≠ cOld) :
    change_current_daily_activity now (some cNew) s =
      { daily_activity_log :=
          if 1 ≤ now - st then
            s.daily_activity_log ++ [⟨cOld, st, now, now - st⟩]
          else s.daily_activity_log,
        current_daily_activity := some cNew,
        last_activity_start_time := some now } := by
  rcases s with ⟨log, cur, last⟩
  simp only at hc hst
  subst hc
  subst hst
  simp only [change_current_daily_activity, ne_eq, Option.some.injEq]
  rw [if_pos hne, if_pos hne]
  split <;> rfl

/-- Closing the open segment (any different request, including `None`)
appends it to the log exactly when its duration is at least a second. -/
lemma change_log_append_iff (now : ℚ) (c : String) (st : ℚ)
    (newCat : Option String) (s : LedgerState)
    (hc : s.current_daily_activity = some c)
    (hst : s.last_activity_start_time = some st)
    (hne : newCat ≠ some c) :
    (change_current_daily_activity now newCat s).daily_activity_log =
      if 1 ≤ now - st then
        s.daily_activity_log ++ [⟨c, st, now, now - st⟩]
      else s.daily_activity_log := by
  rcases s with ⟨log, cur, last⟩
  simp only at hc hst
  subst hc
  subst hst
  cases newCat with
  | none =>
      simp only [change_current_daily_activity, ne_eq, Option.some.injEq]
      rw [if_pos hne]
      split <;> rfl
  | some c2 =>
      have h2 : c2 ≠ c := fun h => hne (by rw [h])
      simp only [change_current_daily_activity, ne_eq, Option.some.injEq]
      rw [if_pos h2, if_pos h2]
      split <;> rfl

/-! ### Claims C5 and C6 -/

/-- C5: for every category-change call whose requested category differs
from the open one (including `None`), the open segment is closed and
appended to the log if and only if its duration `now - start` is at
least one second; a shorter open segment contributes no new log
entry. -/
theorem C5_sub_second_segments_discarded (now : ℚ) (c : String) (st : ℚ)
    (newCat : Option String) (s : LedgerState)
    (hc : s.current_daily_activity = some c)
    (hst : s.last_activity_start_time = some st)
    (hne : newCat ≠ some c) :
    (change_current_daily_activity now newCat s).daily_activity_log =
      if 1 ≤ now - st then
        s.daily_activity_log ++ [⟨c, st, now, now - st⟩]
      else s.daily_activity_log :=
  change_log_append_iff now c st newCat s hc hst hne

/-- C5 witness: a 0.5-second-old segment is discarded when switching,
so the first of two switches within a second logs no segment. -/
theorem C5_sub_second_segments_discarded_witness :
    (some "Trabajo" ≠ some "Estudio") ∧
    (change_current_daily_activity (1/2) (some "Trabajo")
        ⟨[], some "Estudio", some 0⟩).daily_activity_log =
      (if (1:ℚ) ≤ 1/2 - 0 then
        ([] : List ActivitySegment) ++ [⟨"Estudio", 0, 1/2, 1/2 - 0⟩]
      else []) ∧
    (change_current_daily_activity (1/2) (some "Trabajo")
        ⟨[], some "Estudio", some 0⟩).daily_activity_log = [] :=
  ⟨by simp,
    C5_sub_second_segments_discarded (1/2) "Estudio" 0 (some "Trabajo")
      ⟨[], some "Estudio", some 0⟩ rfl rfl (by simp),
    by simp [change_current_daily_activity]
       norm_num⟩

/-- One ledger operation preserves the both-or-neither invariant on
`current_daily_activity` and `last_activity_start_time`. -/
lemma change_preserves_open_inv (now : ℚ) (newCat : Option String)
    (s : LedgerState)
    (h : s.current_daily_activity.isSome = s.last_activity_start_time.isSome) :
    ((change_current_daily_activity now newCat s).current_daily_activity).isSome =
      ((change_current_daily_activity now newCat s).last_activity_start_time).isSome := by
  rcases s with ⟨log, cur, last⟩
  cases cur with
  | none =>
      cases last with
      | none =>
          cases newCat with
          | none => simp [change_current_daily_activity]
          | some c => simp [change_current_daily_activity]
      | some st => simp at h
  | some c0 =>
      cases last with
      | none => simp at h
      | some st =>
          cases newCat with
          | none => simp [change_current_daily_activity]
          | some c =>
              by_cases hc : c = c0
              · subst hc
                simp [change_current_daily_activity]
              · simp [change_current_daily_activity, hc]

/-- C6: in every ledger state reachable from the initial state by any
sequence of category-change operations, `current_daily_activity` is set
if and only if `last_activity_start_time` is set — there is at most one
open segment at a time. -/
theorem C6_open_invariant (ops : List (ℚ × Option String)) :
    ((applyLedgerOps ops initialLedger).current_daily_activity).isSome =
      ((applyLedgerOps ops initialLedger).last_activity_start_time).isSome := by
  suffices h : ∀ s : LedgerState,
      s.current_daily_activity.isSome = s.last_activity_start_time.isSome →
      ((applyLedgerOps ops s).current_daily_activity).isSome =
        ((applyLedgerOps ops s).last_activity_start_time).isSome from
    h initialLedger rfl
  induction ops with
  | nil => exact fun s h => h
  | cons p rest ih =>
      exact fun s h => ih _ (change_preserves_open_inv p.1 p.2 s h)

/-! ### Summation lemmas for the no-double-counting property -/

/-- Sums distribute over pointwise addition of mapped functions. -/
lemma sum_map_add (L : List String) (f g : String → ℚ) :
    (L.map (fun k => f k + g k)).sum = (L.map f).sum + (L.map g).sum := by
  induction L with
  | nil => simp
  | cons a L ih =>
      simp only [List.map_cons, List.sum_cons, ih]
      ring

/-- Over a duplicate-free list containing `c`, summing the indicator
that pays `d` at `c` yields `d` exactly once. -/
lemma sum_map_ite_single (c : String) (d : ℚ) :
    ∀ L : List String, L.Nodup → c ∈ L →
      (L.map (fun k => if c = k then d else 0)).sum = d := by
  intro L
  induction L with
  | nil => intro _ hc; cases hc
  | cons a L ih =>
      intro hnd hc
      rcases List.nodup_cons.mp hnd with ⟨ha, hnd'⟩
      rcases List.mem_cons.mp hc with rfl | hcL
      · have h0 : (L.map (fun k => if c = k then d else 0)).sum = 0 := by
          apply List.sum_eq_zero
          intro x hx
          rcases List.mem_map.mp hx with ⟨k, hk, rfl⟩
          apply if_neg
          intro h
          subst h
          exact ha hk
        simp [h0]
      · have hca : ¬c = a := by
          intro h
          subst h
          exact ha hcL
        simp only [List.map_cons, List.sum_cons, if_neg hca, ih hnd' hcL,
          zero_add]

/-- Grouping closed-segment durations by category over any
duplicate-free list of categories covering the log counts every closed
segment exactly once. -/
lemma sum_grouped_durations :
    ∀ (log : List ActivitySegment) (L : List String), L.Nodup →
      (∀ e ∈ log, e.category ∈ L) →
      (L.map (fun c =>
          ((log.filter (fun e => e.category = c)).map (·.duration)).sum)).sum
        = (log.map (·.duration)).sum := by
  intro log
  induction log with
  | nil =>
      intro L _ _
      simp only [List.filter_nil, List.map_nil, List.sum_nil]
      exact List.sum_eq_zero fun x hx => by
        rcases List.mem_map.mp hx with ⟨k, _, rfl⟩
        rfl
  | cons e log ih =>
      intro L hnd hmem
      have hcat : e.category ∈ L := hmem e (List.mem_cons_self _ _)
      have hmem' : ∀ x ∈ log, x.category ∈ L :=
        fun x hx => hmem x (List.mem_cons_of_mem _ hx)
      have hpt : ∀ c ∈ L,
          (((e :: log).filter (fun x => x.category = c)).map (·.duration)).sum
            = (if e.category = c then e.duration else 0) +
              ((log.filter (fun x => x.category = c)).map (·.duration)).sum := by
        intro c _
        by_cases h : e.category = c
        · simp [List.filter_cons, h]
        · simp [List.filter_cons, h]
      rw [List.map_congr_left hpt, sum_map_add,
        sum_map_ite_single e.category e.duration L hnd hcat, ih L hnd hmem']
      simp

/-- With a segment open since `st ≤ now` under category `c`, the
summary's per-category totals over its key set sum to the closed total
plus the live duration of the open segment. -/
lemma summary_total (log : List ActivitySegment) (c : String) (st now : ℚ)
    (hle : st ≤ now) :
    ((summary_categories log (some c)).map
        (accumulated_category_seconds log (some c) (some st) now)).sum
      = segment_seconds_total log + (now - st) := by
  have hnd : (summary_categories log (some c)).Nodup := List.nodup_dedup _
  have hcL : c ∈ summary_categories log (some c) := by
    rw [summary_categories, List.mem_dedup]
    exact List.mem_append_right _ (List.mem_singleton.mpr rfl)
  have hmem : ∀ e ∈ log, e.category ∈ summary_categories log (some c) := by
    intro e he
    rw [summary_categories, List.mem_dedup]
    exact List.mem_append_left _ (List.mem_map_of_mem _ he)
  have hacc : ∀ k ∈ summary_categories log (some c),
      accumulated_category_seconds log (some c) (some st) now k
        = ((log.filter (fun e => e.category = k)).map (·.duration)).sum +
          (if c = k then (if 0 < now - st then now - st else 0) else 0) := by
    intro k _
    rw [accumulated_category_seconds]
    congr 1
    by_cases hck : c = k
    · subst hck
      by_cases hlt : 0 < now - st
      · simp [hlt]
      · simp [hlt]
    · simp [hck]
  rw [List.map_congr_left hacc, sum_map_add,
    sum_grouped_durations log _ hnd hmem,
    sum_map_ite_single c _ _ hnd hcL]
  by_cases hlt : 0 < now - st
  · rw [if_pos hlt, segment_seconds_total]
  · have h0 : now - st = 0 := le_antisymm (not_lt.mp hlt) (by linarith)
    rw [if_neg hlt, h0, segment_seconds_total]

/-- Total closed seconds grow by the closed segment's duration. -/
lemma segment_seconds_total_append (log : List ActivitySegment)
    (seg : ActivitySegment) :
    segment_seconds_total (log ++ [seg]) =
      segment_seconds_total log + seg.duration := by
  simp [segment_seconds_total]

/-- Invariant of the switch fold: with a segment open since `st` and
all closed time accounting for `st - t0`, applying switches whose
timestamps keep growing by at least one second leaves a segment open
since some `st2` no later than the last timestamp, with closed time
accounting for `st2 - t0` — no time lost, none counted twice. -/
lemma applySwitches_accounting :
    ∀ (l : List (String × ℚ)) (s : LedgerState) (c : String) (st t0 tp : ℚ),
      s.current_daily_activity = some c →
      s.last_activity_start_time = some st →
      st ≤ tp →
      segment_seconds_total s.daily_activity_log = st - t0 →
      List.Chain (fun a b => a + 1 ≤ b) tp (l.map (·.2)) →
      ∃ c2 st2,
        (applySwitches l s).current_daily_activity = some c2 ∧
        (applySwitches l s).last_activity_start_time = some st2 ∧
        segment_seconds_total (applySwitches l s).daily_activity_log =
          st2 - t0 ∧
        st2 ≤ (l.map (·.2)).getLastD tp := by
  intro l
  induction l with
  | nil =>
      intro s c st t0 tp hc hst hstp htot _
      exact ⟨c, st, hc, hst, htot, by simpa using hstp⟩
  | cons p rest ih =>
      intro s c st t0 tp hc hst hstp htot hchain
      rw [List.map_cons, List.chain_cons] at hchain
      obtain ⟨hgap, hchain'⟩ := hchain
      have hstep : applySwitches (p :: rest) s =
          applySwitches rest (change_current_daily_activity p.2 (some p.1) s) := rfl
      rw [List.map_cons, List.getLastD_cons]
      by_cases hcc : p.1 = c
      · rw [hstep, hcc, change_noop p.2 c s hc]
        exact ih s c st t0 p.2 hc hst (by linarith) htot hchain'
      · rw [hstep, change_switch p.2 c p.1 st s hc hst hcc]
        have hd : (1:ℚ) ≤ p.2 - st := by linarith
        refine ih _ p.1 p.2 t0 p.2 rfl rfl le_rfl ?_ hchain'
        simp only [if_pos hd, segment_seconds_total_append, htot]
        ring

/-! ### Claim C3 -/

/-- C3: starting from an empty ledger, for any sequence of category
switches whose timestamps grow by at least one second (so that no
sub-second fragment is discarded), the closed-segment durations plus
the still-open segment's duration at the final timestamp `tn` add up to
exactly `tn - t0`, and the summary's accumulated-seconds-by-category
totals sum to the same value — every closed segment is counted exactly
once, none twice. -/
theorem C3_no_double_counting (c0 : String) (t0 : ℚ)
    (rest : List (String × ℚ)) (s : LedgerState) (tn : ℚ)
    (hchain : List.Chain (fun a b => a + 1 ≤ b) t0 (rest.map (·.2)))
    (hs : applySwitches ((c0, t0) :: rest) initialLedger = s)
    (htn : (rest.map (·.2)).getLastD t0 = tn) :
    segment_seconds_total s.daily_activity_log +
        (tn - s.last_activity_start_time.getD 0) = tn - t0 ∧
    s.last_activity_start_time.isSome = true ∧
    ((summary_categories s.daily_activity_log s.current_daily_activity).map
        (accumulated_category_seconds s.daily_activity_log
          s.current_daily_activity s.last_activity_start_time tn)).sum
      = tn - t0 := by
  have hfirst : applySwitches ((c0, t0) :: rest) initialLedger =
      applySwitches rest ⟨[], some c0, some t0⟩ := by
    show applySwitches rest
        (change_current_daily_activity t0 (some c0) initialLedger) = _
    rw [change_open_from_none t0 c0 initialLedger rfl]
    rfl
  obtain ⟨c2, st2, hc2, hst2, htot2, hle2⟩ :=
    applySwitches_accounting rest ⟨[], some c0, some t0⟩ c0 t0 t0 t0 rfl rfl
      le_rfl (by simp [segment_seconds_total]) hchain
  rw [hfirst] at hs
  subst hs
  rw [htn] at hle2
  refine ⟨?_, ?_, ?_⟩
  · rw [hst2, Option.getD_some, htot2]
    ring
  · rw [hst2]; rfl
  · rw [hc2, hst2, summary_total _ c2 st2 tn hle2, htot2]
    ring

/-- C3 witness: the theorem at the two-switch run
`Estudio` at 0, `Trabajo` at 10. -/
theorem C3_no_double_counting_witness :
    applySwitches [("Estudio", 0), ("Trabajo", 10)] initialLedger =
      ⟨[⟨"Estudio", 0, 10, 10⟩], some "Trabajo", some 10⟩ ∧
    (segment_seconds_total [⟨"Estudio", 0, 10, 10⟩] +
        ((10:ℚ) - (some (10:ℚ)).getD 0) = 10 - 0 ∧
      (some (10:ℚ)).isSome = true ∧
      ((summary_categories [⟨"Estudio", 0, 10, 10⟩] (some "Trabajo")).map
          (accumulated_category_seconds [⟨"Estudio", 0, 10, 10⟩]
            (some "Trabajo") (some 10) 10)).sum = 10 - 0) := by
  have hs : applySwitches [("Estudio", 0), ("Trabajo", 10)] initialLedger =
      (⟨[⟨"Estudio", 0, 10, 10⟩], some "Trabajo", some 10⟩ : LedgerState) := by
    simp [applySwitches, change_current_daily_activity, initialLedger]
  refine ⟨hs, ?_⟩
  exact C3_no_double_counting "Estudio" 0 [("Trabajo", 10)]
    ⟨[⟨"Estudio", 0, 10, 10⟩], some "Trabajo", some 10⟩ 10
    (List.Chain.cons (by norm_num) List.Chain.nil) hs (by norm_num)

end Pydoro
